import Mathlib

/-!
# Verification of the log-rotator rotation engine (src/rotator.py)

Shallow embedding of the rotation engine: the filesystem is an association
list from path strings to nodes (regular files carry their byte content and
modification time; directories carry a stat size and modification time).
External library calls are modelled explicitly: the gzip/bz2 compressors are
parameters (a `Codec` holding the compress and decompress byte maps), the
formatted `datetime.now().strftime(...)` string and the current time are
parameters, and a possible I/O failure while writing the destination archive
is an explicit fault parameter (`some k` = the write raises after `k` bytes
of the output have been flushed).
-/

namespace LogRotator

/-- A byte sequence: file contents are lists of bytes. -/
abbrev Bytes := List Nat

/-- A compression backend as used through `gzip.open` / `bz2.open`: a map from
raw bytes to stored bytes and its inverse direction. External library code,
hence a parameter of the model. -/
structure Codec where
  compress : Bytes → Bytes
  decompress : Bytes → Bytes

/-- A filesystem node: a regular file (content bytes and mtime, in seconds)
or a directory (stat size and mtime). `Path.exists()` is true for both;
`open(path, 'rb')` raises on a directory. -/
inductive FSNode where
  | file (content : Bytes) (mtime : Int)
  | dir (dsize : Nat) (mtime : Int)
deriving Repr, DecidableEq

/-- `st_size` of a node: content length for a regular file, the directory's
stat size otherwise. -/
def stSize : FSNode → Nat
  | .file content _ => content.length
  | .dir dsize _ => dsize

/-- `st_mtime` of a node. -/
def mtimeOf : FSNode → Int
  | .file _ m => m
  | .dir _ m => m

/-- The filesystem (one flat directory view): an association list from path
strings to nodes, in directory-listing order. -/
abbrev FS := List (String × FSNode)

/-- Path lookup (`Path.exists()` / `stat` / `open`): first entry with the key. -/
def lookupFS : FS → String → Option FSNode
  | [], _ => none
  | (q, node) :: rest, p => if q = p then some node else lookupFS rest p

/-- Writing a node at a path: replace the first entry with that key, or append
a new entry when the path does not exist yet. -/
def writeFS (fs : FS) (p : String) (n : FSNode) : FS :=
  match fs with
  | [] => [(p, n)]
  | (q, node) :: rest => if q = p then (p, n) :: rest else (q, node) :: writeFS rest p n

/-- `RotationPolicy` from src/rotator.py lines 22-29: a plain dataclass, no
validation is performed at construction time. -/
structure RotationPolicy where
  max_size_mb : ℚ := 100
  max_age_days : Int := 30
  compress : String := "gzip"
  timestamp_format : String := "%Y%m%d_%H%M%S"
  backup_count : Nat := 10

/-- `RotationResult` from src/rotator.py lines 32-39. -/
structure RotationResult where
  source : String
  destination : String
  original_size : Nat
  compressed_size : Option Nat
  timestamp : Int
deriving Repr, DecidableEq

/-- The engine's mutable state: the filesystem and the `self.results` history. -/
structure EngineState where
  fs : FS
  results : List RotationResult

/-- The `COMPRESSORS` table (lines 45-49) together with the `.get(name,
COMPRESSORS['none'])` access on lines 70-72: suffix and optional compressor
for a backend name; any unknown name yields the `'none'` entry. -/
def compressorsGet (g b : Codec) (name : String) : String × Option Codec :=
  if name = "gzip" then (".gz", some g)
  else if name = "bz2" then (".bz2", some b)
  else ("", none)

/-- Index of the last occurrence of a character (`str.rfind`). -/
def lastIdxOf (c : Char) (cs : List Char) : Option Nat :=
  match cs.reverse.findIdx? (· = c) with
  | none => none
  | some j => some (cs.length - 1 - j)

/-- CPython `PurePath.stem` / `PurePath.suffix` on a file name: split at the
last dot when it is neither the first nor the last character, otherwise the
whole name is the stem and the suffix is empty. -/
def pySplitExt (name : List Char) : List Char × List Char :=
  match lastIdxOf '.' name with
  | none => (name, [])
  | some i => if 0 < i ∧ i < name.length - 1 then (name.take i, name.drop i) else (name, [])

/-- Split a path at its last slash: (`parent` prefix including the slash,
final component). `Path.parent / name` re-attaches the prefix. -/
def splitLastSlash (cs : List Char) : List Char × List Char :=
  match lastIdxOf '/' cs with
  | none => ([], cs)
  | some i => (cs.take (i + 1), cs.drop (i + 1))

/-- The destination path computed on lines 74-75:
`parent / (stem ++ "." ++ timestamp ++ suffix ++ ext_suffix)`. -/
def destPathOf (pol : RotationPolicy) (g b : Codec) (filepath : String) (ts : String) : String :=
  let dirBase := splitLastSlash filepath.toList
  let stemSfx := pySplitExt dirBase.2
  let ext := (compressorsGet g b pol.compress).1
  ⟨dirBase.1 ++ stemSfx.1 ++ ('.' :: ts.toList) ++ stemSfx.2 ++ ext.toList⟩

/-- `should_rotate` (lines 55-61): false when the path does not exist,
otherwise compare `st_size / (1024*1024)` against `policy.max_size_mb`.
Note: only existence is checked, not whether the node is a regular file. -/
def should_rotate (pol : RotationPolicy) (fs : FS) (filepath : String) : Bool :=
  match lookupFS fs filepath with
  | none => false
  | some node => decide ((stSize node : ℚ) / (1024 * 1024) ≥ pol.max_size_mb)

/-- `rotate_file` (lines 63-98). `ts` is the formatted timestamp string,
`now` the current time in seconds, `fault` an injected destination-write
failure (`some k`: the write raises after `k` output bytes were flushed;
the raised exception propagates to the caller as `.error`). -/
def rotate_file (pol : RotationPolicy) (g b : Codec) (ts : String) (now : Int)
    (fault : Option Nat) (st : EngineState) (filepath : String) (dry_run : Bool) :
    Except String (Option RotationResult) × EngineState :=
  match lookupFS st.fs filepath with
  | none => (.ok none, st)
  | some node =>
    let dest_path := destPathOf pol g b filepath ts
    let original_size := stSize node
    if dry_run then
      (.ok (some ⟨filepath, dest_path, original_size, none, now⟩), st)
    else
      match node with
      | .dir _ _ => (.error "IsADirectoryError", st)
      | .file content _mtime =>
        match (compressorsGet g b pol.compress).2 with
        | some codec =>
          match fault with
          | some k =>
            (.error "OSError",
              { st with fs := writeFS st.fs dest_path (.file ((codec.compress content).take k) now) })
          | none =>
            let stored := codec.compress content
            let fs1 := writeFS st.fs dest_path (.file stored now)
            let fs2 := writeFS fs1 filepath (.file [] now)
            let result : RotationResult := ⟨filepath, dest_path, original_size, some stored.length, now⟩
            (.ok (some result), { fs := fs2, results := st.results ++ [result] })
        | none =>
          match fault with
          | some k =>
            (.error "OSError",
              { st with fs := writeFS st.fs dest_path (.file (content.take k) now) })
          | none =>
            let fs1 := writeFS st.fs dest_path (.file content _mtime)
            let fs2 := writeFS fs1 filepath (.file [] now)
            let result : RotationResult := ⟨filepath, dest_path, original_size, none, now⟩
            (.ok (some result), { fs := fs2, results := st.results ++ [result] })

/-- Shell-style `fnmatch` over `*` and `?` wildcards: `*` matches any
(possibly empty) sequence — expressed as matching the rest of the pattern
against some suffix of the name —, `?` any single character, and any other
pattern character only itself. -/
def fnmatch : List Char → List Char → Bool
  | [], cs => cs.isEmpty
  | '*' :: ps, cs => cs.tails.any (fun s => fnmatch ps s)
  | '?' :: _, [] => false
  | '?' :: ps, _ :: cs => fnmatch ps cs
  | _ :: _, [] => false
  | p :: ps, c :: cs => (p == c) && fnmatch ps cs

/-- `glob.glob` name matching: wildcards do not match a leading dot
(hidden files need a literal leading dot in the pattern). -/
def globMatch (pat name : List Char) : Bool :=
  match name, pat with
  | '.' :: _, '.' :: _ => fnmatch pat name
  | '.' :: _, _ => false
  | _, _ => fnmatch pat name

/-- `sorted(...)`: lexicographic ascending sort of path strings. -/
def sortStrings (l : List String) : List String :=
  List.insertionSort (· ≤ ·) l

/-- `sorted(glob.glob(pattern))` over the directory listing. -/
def globExpand (pattern : String) (fs : FS) : List String :=
  sortStrings ((fs.map Prod.fst).filter (fun n => globMatch pattern.toList n.toList))

/-- The loop body of `rotate` (lines 103-107) over an explicit list of paths:
check `should_rotate`, rotate, collect non-`None` results in order. An
exception from `rotate_file` propagates, discarding the collected list. -/
def rotateGo (pol : RotationPolicy) (g b : Codec) (ts : String) (now : Int)
    (faults : String → Option Nat) (dry : Bool) :
    List String → EngineState → Except String (List RotationResult) × EngineState
  | [], st => (.ok [], st)
  | f :: rest, st =>
    if should_rotate pol st.fs f then
      match rotate_file pol g b ts now (faults f) st f dry with
      | (.error e, st1) => (.error e, st1)
      | (.ok ores, st1) =>
        match rotateGo pol g b ts now faults dry rest st1 with
        | (.error e, st2) => (.error e, st2)
        | (.ok rs, st2) =>
          match ores with
          | some r => (.ok (r :: rs), st2)
          | none => (.ok rs, st2)
    else rotateGo pol g b ts now faults dry rest st

/-- `rotate` (lines 100-108): expand and sort the glob matches, then run the
per-file loop. -/
def rotate (pol : RotationPolicy) (g b : Codec) (ts : String) (now : Int)
    (faults : String → Option Nat) (st : EngineState) (pattern : String) (dry : Bool) :
    Except String (List RotationResult) × EngineState :=
  rotateGo pol g b ts now faults dry (globExpand pattern st.fs) st

/-- One `for path in dir_path.glob(f'*{ext}')` pass of `cleanup_old`
(lines 116-124): delete (or, when `dry`, only count) every match whose mtime
is strictly before the cutoff. `unlink` on a directory raises. -/
def cleanupPass (cutoff : Int) (pat : List Char) (dry : Bool) : FS → Except String (Nat × FS)
  | [] => .ok (0, [])
  | (name, node) :: rest =>
    if fnmatch pat name.toList then
      if mtimeOf node < cutoff then
        if dry then
          match cleanupPass cutoff pat dry rest with
          | .error e => .error e
          | .ok (c, r) => .ok (c + 1, (name, node) :: r)
        else
          match node with
          | .dir _ _ => .error "IsADirectoryError"
          | .file _ _ =>
            match cleanupPass cutoff pat dry rest with
            | .error e => .error e
            | .ok (c, r) => .ok (c + 1, r)
      else
        match cleanupPass cutoff pat dry rest with
        | .error e => .error e
        | .ok (c, r) => .ok (c, (name, node) :: r)
    else
      match cleanupPass cutoff pat dry rest with
      | .error e => .error e
      | .ok (c, r) => .ok (c, (name, node) :: r)

/-- `cleanup_old` (lines 110-126): cutoff is `now - max_age_days` days; one
pass for `*.gz`, then one for `*.bz2`; returns the summed count. -/
def cleanup_old (pol : RotationPolicy) (now : Int) (fs : FS) (dry : Bool) :
    Except String (Nat × FS) :=
  let cutoff := now - pol.max_age_days * 86400
  match cleanupPass cutoff "*.gz".toList dry fs with
  | .error e => .error e
  | .ok (c1, fs1) =>
    match cleanupPass cutoff "*.bz2".toList dry fs1 with
    | .error e => .error e
    | .ok (c2, fs2) => .ok (c1 + c2, fs2)

/-- The stored size of one result as `summary` counts it (line 131):
`r.compressed_size or r.original_size` — Python `or` treats both `None`
and `0` as absent, so a recorded compressed size of `0` falls back to the
original size. -/
def storedSize (r : RotationResult) : Nat :=
  match r.compressed_size with
  | none => r.original_size
  | some c => if c = 0 then r.original_size else c

/-- The stored size as the spec's words describe it ("compressed size when
present, else the original size"): only `None` falls back. Stated for
comparison with `storedSize`, which is the code's behaviour. -/
def storedSizeSpec (r : RotationResult) : Nat :=
  r.compressed_size.getD r.original_size

/-- The numbers rendered by `summary` (lines 128-140): count, total original
bytes, total stored bytes, and the percentage saved. -/
structure SummaryData where
  count : Nat
  total_original : Nat
  total_compressed : Nat
  saved_pct : ℚ
deriving Repr, DecidableEq

/-- `summary` (lines 128-140), numerically: the two totals and
`(1 - total_compressed / total_original) * 100` guarded by
`total_original > 0`. -/
def summary (results : List RotationResult) : SummaryData :=
  let total_original := (results.map (·.original_size)).sum
  let total_compressed := (results.map storedSize).sum
  ⟨results.length, total_original, total_compressed,
    if 0 < total_original then
      (1 - (total_compressed : ℚ) / (total_original : ℚ)) * 100
    else 0⟩

/-- The decoding direction for the backend a policy names: the codec's
decompress map, or the identity for the `'none'` (or unknown) backend. -/
def decodeFor (g b : Codec) (name : String) : Bytes → Bytes :=
  match (compressorsGet g b name).2 with
  | some codec => codec.decompress
  | none => id

/-- The deletion condition of `cleanup_old` on one directory entry: the name
matches `*.gz` or `*.bz2` and the mtime is strictly before the cutoff. -/
def archiveOld (cutoff : Int) (e : String × FSNode) : Bool :=
  (fnmatch "*.gz".toList e.1.toList || fnmatch "*.bz2".toList e.1.toList)
    && decide (mtimeOf e.2 < cutoff)

/-- The deletion condition of one `cleanup_old` pass for one extension
pattern: the name matches the pattern and the mtime is strictly before the
cutoff. -/
def passHit (cutoff : Int) (pat : List Char) (e : String × FSNode) : Bool :=
  fnmatch pat e.1.toList && decide (mtimeOf e.2 < cutoff)

/-- Whether a node is a regular file. -/
def isFileNode : FSNode → Bool
  | .file _ _ => true
  | .dir _ _ => false

/-! ## Helper lemmas (shared) -/

theorem lookupFS_writeFS_self (fs : FS) (p : String) (n : FSNode) :
    lookupFS (writeFS fs p n) p = some n := by
  induction fs with
  | nil => simp [writeFS, lookupFS]
  | cons e rest ih =>
    obtain ⟨q, node⟩ := e
    by_cases h : q = p
    · simp [writeFS, h, lookupFS]
    · simp [writeFS, h, lookupFS, ih]

theorem lookupFS_writeFS_ne (fs : FS) (p : String) (n : FSNode) (q : String) (h : q ≠ p) :
    lookupFS (writeFS fs p n) q = lookupFS fs q := by
  induction fs with
  | nil =>
    simp only [writeFS, lookupFS]
    rw [if_neg (fun hpq : p = q => h hpq.symm)]
  | cons e rest ih =>
    obtain ⟨q1, node⟩ := e
    by_cases h1 : q1 = p
    · subst h1
      simp only [writeFS, if_pos rfl, lookupFS]
      rw [if_neg (fun hpq : q1 = q => h hpq.symm), if_neg (fun hpq : q1 = q => h hpq.symm)]
    · simp only [writeFS, if_neg h1, lookupFS]
      by_cases h2 : q1 = q <;> simp [h2, ih]

theorem splitLastSlash_append (cs : List Char) :
    (splitLastSlash cs).1 ++ (splitLastSlash cs).2 = cs := by
  unfold splitLastSlash
  cases lastIdxOf '/' cs with
  | none => simp
  | some i => simp

theorem pySplitExt_append (cs : List Char) :
    (pySplitExt cs).1 ++ (pySplitExt cs).2 = cs := by
  unfold pySplitExt
  cases lastIdxOf '.' cs with
  | none => simp
  | some i =>
    by_cases h : 0 < i ∧ i < cs.length - 1 <;> simp [h]

theorem destPathOf_toList (pol : RotationPolicy) (g b : Codec) (p ts : String) :
    (destPathOf pol g b p ts).toList =
      (splitLastSlash p.toList).1 ++ (pySplitExt (splitLastSlash p.toList).2).1 ++
        ('.' :: ts.toList) ++ (pySplitExt (splitLastSlash p.toList).2).2 ++
        ((compressorsGet g b pol.compress).1).toList := rfl

theorem destPathOf_ne (pol : RotationPolicy) (g b : Codec) (p ts : String) :
    destPathOf pol g b p ts ≠ p := by
  intro h
  have hlen := congrArg (fun s : String => s.toList.length) h
  simp only [] at hlen
  rw [destPathOf_toList] at hlen
  have h1 := congrArg List.length (splitLastSlash_append p.toList)
  have h2 := congrArg List.length (pySplitExt_append (splitLastSlash p.toList).2)
  simp only [List.length_append, List.length_cons] at hlen h1 h2
  omega

theorem compressorsGet_cases (g b : Codec) (name : String) :
    compressorsGet g b name = (".gz", some g) ∨ compressorsGet g b name = (".bz2", some b) ∨
      compressorsGet g b name = ("", none) := by
  unfold compressorsGet
  by_cases h1 : name = "gzip"
  · simp [h1]
  · by_cases h2 : name = "bz2" <;> simp [h1, h2]

/-! ## Claim C2 -/

/-- C2, counterexample: the claim requires `should_rotate` to return `false`
on a path that is not a regular file, but the code only checks existence:
on a directory whose stat size (2 MiB) meets a 1 MiB threshold it returns
`true`. -/
theorem should_rotate_counterexample_C2 :
    lookupFS [("logs.d", FSNode.dir 2097152 0)] "logs.d" = some (FSNode.dir 2097152 0) ∧
    should_rotate ⟨1, 30, "gzip", "%Y", 10⟩ [("logs.d", FSNode.dir 2097152 0)] "logs.d" = true := by
  constructor
  · rfl
  · simp [should_rotate, lookupFS, stSize]
    norm_num

/-- C2 (amended): `should_rotate` returns `false` iff the path does not
exist; for any existing node — regular file or not — it returns `true` iff
`st_size / (1024*1024) ≥ max_size_mb`, i.e. `st_size ≥ max_size_mb * 2^20`;
it is a pure function and is total on missing paths. -/
theorem should_rotate_spec_C2 (pol : RotationPolicy) (fs : FS) (p : String) :
    (lookupFS fs p = none → should_rotate pol fs p = false) ∧
    (should_rotate pol fs p = true ↔
      ∃ node, lookupFS fs p = some node ∧
        pol.max_size_mb * (1024 * 1024) ≤ (stSize node : ℚ)) := by
  constructor
  · intro h; simp [should_rotate, h]
  · cases hl : lookupFS fs p with
    | none => simp [should_rotate, hl]
    | some node =>
      simp only [should_rotate, hl, ge_iff_le, decide_eq_true_eq, Option.some.injEq]
      rw [le_div_iff₀ (by norm_num : (0 : ℚ) < 1024 * 1024)]
      constructor
      · intro h; exact ⟨node, rfl, h⟩
      · rintro ⟨n, hn, h⟩; cases hn; exact h

/-- C2 witness: a 1-byte file against a 1/2^20 MB (= 1 byte) threshold
qualifies. -/
theorem should_rotate_spec_C2_witness :
    should_rotate ⟨1 / 1048576, 30, "gzip", "%Y", 10⟩
      [("a.log", FSNode.file [7] 0)] "a.log" = true :=
  (should_rotate_spec_C2 ⟨1 / 1048576, 30, "gzip", "%Y", 10⟩
      [("a.log", FSNode.file [7] 0)] "a.log").2.mpr
    ⟨FSNode.file [7] 0, rfl, by norm_num [stSize]⟩

/-! ## Claim C7 -/

/-- C7, counterexample: on a history holding one result with a recorded
compressed size of `0` (and original size 5), the claimed invariant says the
saved fraction is `1 - 0/5 = 1` (100%), but `summary` — through Python's
falsy `or` — treats the `0` as absent and reports `0`. -/
theorem summary_counterexample_C7 :
    (summary [⟨"a.log", "a.T.log.gz", 5, some 0, 0⟩]).saved_pct = 0 ∧
    1 - (storedSizeSpec ⟨"a.log", "a.T.log.gz", 5, some 0, 0⟩ : ℚ) /
        ((⟨"a.log", "a.T.log.gz", 5, some 0, 0⟩ : RotationResult).original_size : ℚ) = 1 := by
  constructor
  · norm_num [summary, storedSize]
  · norm_num [storedSizeSpec]

/-- C7 (amended): `summary` reports count, byte totals and percentage saved
`(1 - total_stored/total_original) * 100`, `0` when `total_original = 0`;
`total_stored` uses the compressed size only when it is present AND nonzero
(Python `or` treats a stored `0` as absent). On histories where no result
records a compressed size of exactly `0`, this agrees with the spec's
"compressed size when present, else original size"; the empty history yields
0 files, 0-byte totals and 0% saved with no division failure. -/
theorem summary_spec_C7 (results : List RotationResult)
    (h : ∀ r ∈ results, r.compressed_size ≠ some 0) :
    summary [] = ⟨0, 0, 0, 0⟩ ∧
    (summary results).count = results.length ∧
    (summary results).total_original = (results.map (·.original_size)).sum ∧
    (summary results).total_compressed = (results.map storedSizeSpec).sum ∧
    ((summary results).total_original = 0 → (summary results).saved_pct = 0) ∧
    (0 < (summary results).total_original →
      (summary results).saved_pct =
        (1 - ((results.map storedSizeSpec).sum : ℚ) /
          (((results.map (·.original_size)).sum : ℕ) : ℚ)) * 100) := by
  have hmap : results.map storedSize = results.map storedSizeSpec := by
    apply List.map_congr_left
    intro r hr
    have := h r hr
    cases hc : r.compressed_size with
    | none => simp [storedSize, storedSizeSpec, hc]
    | some c =>
      have hc0 : c ≠ 0 := by rintro rfl; exact this hc
      simp [storedSize, storedSizeSpec, hc, hc0]
  refine ⟨rfl, rfl, rfl, ?_, ?_, ?_⟩
  · simp [summary, hmap]
  · intro h0
    have h0' : (results.map (·.original_size)).sum = 0 := h0
    simp [summary, h0']
  · intro h0
    have h0' : 0 < (results.map (·.original_size)).sum := h0
    simp only [summary, hmap, if_pos h0']

/-- C7 witness: a compressed (3 of 8 bytes) and an identity result; 8+2=10
original, 3+2=5 stored, 50% saved. -/
theorem summary_spec_C7_witness :
    (summary [⟨"a.log", "a.T.log.gz", 8, some 3, 0⟩, ⟨"b.log", "b.T.log", 2, none, 0⟩]).saved_pct
      = (1 - (([(⟨"a.log", "a.T.log.gz", 8, some 3, 0⟩ : RotationResult),
          ⟨"b.log", "b.T.log", 2, none, 0⟩].map storedSizeSpec).sum : ℚ) /
          ((([(⟨"a.log", "a.T.log.gz", 8, some 3, 0⟩ : RotationResult),
          ⟨"b.log", "b.T.log", 2, none, 0⟩].map (·.original_size)).sum : ℕ) : ℚ)) * 100 :=
  (summary_spec_C7 [⟨"a.log", "a.T.log.gz", 8, some 3, 0⟩, ⟨"b.log", "b.T.log", 2, none, 0⟩]
    (by intro r hr; fin_cases hr <;> simp)).2.2.2.2.2 (by norm_num [summary, storedSize])

/-! ## Claim C10 -/

/-- C10: a dry-run `rotate_file` never touches the in-memory results history,
and a non-dry-run call appends exactly its returned result on success and
nothing on a missing file or an error: the history records exclusively real,
completed rotations. -/
theorem rotate_file_history_C10 (pol : RotationPolicy) (g b : Codec) (ts : String) (now : Int)
    (fault : Option Nat) (st : EngineState) (filepath : String) :
    (rotate_file pol g b ts now fault st filepath true).2.results = st.results ∧
    (rotate_file pol g b ts now fault st filepath false).2.results =
      st.results ++ (match (rotate_file pol g b ts now fault st filepath false).1 with
        | .ok (some r) => [r]
        | .ok none => []
        | .error _ => []) := by
  unfold rotate_file
  cases hl : lookupFS st.fs filepath with
  | none => simp
  | some node =>
    cases node with
    | dir d m => simp
    | file content m =>
      cases hc : (compressorsGet g b pol.compress).2 <;> cases fault <;> simp

/-! ## Claim C5 -/

/-- C5, counterexample: a policy naming the unknown backend "zstd" is not
rejected anywhere: the engine silently falls back to the identity backend at
rotation time — the rotation completes with `ok`, no compression suffix, and
a byte-for-byte copy at the destination (the supplied gzip/bz2 codecs, which
would prepend a header byte, are not used). -/
theorem unknown_backend_counterexample_C5 :
    compressorsGet ⟨fun l => 9 :: l, fun l => l.drop 1⟩ ⟨fun l => 8 :: l, fun l => l.drop 1⟩
      "zstd" = ("", none) ∧
    (rotate_file ⟨100, 30, "zstd", "%Y", 10⟩ ⟨fun l => 9 :: l, fun l => l.drop 1⟩
        ⟨fun l => 8 :: l, fun l => l.drop 1⟩ "T" 9 none
        ⟨[("a.log", FSNode.file [1, 2] 0)], []⟩ "a.log" false).1
      = .ok (some ⟨"a.log", "a.T.log", 2, none, 9⟩) ∧
    lookupFS (rotate_file ⟨100, 30, "zstd", "%Y", 10⟩ ⟨fun l => 9 :: l, fun l => l.drop 1⟩
        ⟨fun l => 8 :: l, fun l => l.drop 1⟩ "T" 9 none
        ⟨[("a.log", FSNode.file [1, 2] 0)], []⟩ "a.log" false).2.fs "a.T.log"
      = some (FSNode.file [1, 2] 0) :=
  ⟨rfl, rfl, rfl⟩

/-- C5 (amended): `RotationPolicy` construction performs no validation; for
any compression name other than `"gzip"` and `"bz2"` (including unknown
names such as `"zstd"`), `COMPRESSORS.get` silently yields the identity
entry `("", None)` at rotation time, and `rotate_file` behaves exactly as
with `compress = "none"`. -/
theorem unknown_backend_spec_C5 (pol : RotationPolicy) (g b : Codec)
    (h1 : pol.compress ≠ "gzip") (h2 : pol.compress ≠ "bz2") :
    compressorsGet g b pol.compress = ("", none) ∧
    ∀ ts now fault st filepath dry,
      rotate_file pol g b ts now fault st filepath dry =
        rotate_file ⟨pol.max_size_mb, pol.max_age_days, "none", pol.timestamp_format,
          pol.backup_count⟩ g b ts now fault st filepath dry := by
  have hc : compressorsGet g b pol.compress = ("", none) := by
    unfold compressorsGet
    simp [h1, h2]
  have hc2 : compressorsGet g b
      (RotationPolicy.mk pol.max_size_mb pol.max_age_days "none" pol.timestamp_format
        pol.backup_count).compress = ("", none) := rfl
  refine ⟨hc, ?_⟩
  intro ts now fault st filepath dry
  simp only [rotate_file, destPathOf, hc, hc2]

/-- C5 witness: the amended statement at the concrete unknown name "zstd". -/
theorem unknown_backend_spec_C5_witness :
    compressorsGet ⟨fun l => 9 :: l, fun l => l.drop 1⟩ ⟨fun l => 8 :: l, fun l => l.drop 1⟩
      "zstd" = ("", none) ∧
    rotate_file ⟨100, 30, "zstd", "%Y", 10⟩ ⟨fun l => 9 :: l, fun l => l.drop 1⟩
        ⟨fun l => 8 :: l, fun l => l.drop 1⟩ "T" 9 none
        ⟨[("a.log", FSNode.file [1, 2] 0)], []⟩ "a.log" false =
      rotate_file ⟨100, 30, "none", "%Y", 10⟩ ⟨fun l => 9 :: l, fun l => l.drop 1⟩
        ⟨fun l => 8 :: l, fun l => l.drop 1⟩ "T" 9 none
        ⟨[("a.log", FSNode.file [1, 2] 0)], []⟩ "a.log" false :=
  ⟨(unknown_backend_spec_C5 ⟨100, 30, "zstd", "%Y", 10⟩ _ _ (by decide) (by decide)).1,
    (unknown_backend_spec_C5 ⟨100, 30, "zstd", "%Y", 10⟩ _ _ (by decide) (by decide)).2
      "T" 9 none ⟨[("a.log", FSNode.file [1, 2] 0)], []⟩ "a.log" false⟩

/-! ## Claim C3 -/

/-- C3, counterexample: with the gzip-like backend (which prepends a header
byte), a destination write failing after 2 flushed bytes leaves a 2-byte
partial artifact at the final destination name `app.T.log.gz`, while the
complete archive would be the 5 bytes `9 :: [1, 2, 3, 4]` — contradicting
"no partially-written archive is ever present at the final destination
name". -/
theorem rotate_file_partial_archive_counterexample_C3 :
    (rotate_file ⟨100, 30, "gzip", "%Y", 10⟩ ⟨fun l => 9 :: l, fun l => l.drop 1⟩
        ⟨fun l => 8 :: l, fun l => l.drop 1⟩ "T" 100 (some 2)
        ⟨[("app.log", FSNode.file [1, 2, 3, 4] 0)], []⟩ "app.log" false).1
      = .error "OSError" ∧
    lookupFS (rotate_file ⟨100, 30, "gzip", "%Y", 10⟩ ⟨fun l => 9 :: l, fun l => l.drop 1⟩
        ⟨fun l => 8 :: l, fun l => l.drop 1⟩ "T" 100 (some 2)
        ⟨[("app.log", FSNode.file [1, 2, 3, 4] 0)], []⟩ "app.log" false).2.fs "app.T.log.gz"
      = some (FSNode.file [9, 1] 100) ∧
    ([9, 1] : List Nat) ≠ 9 :: [1, 2, 3, 4] :=
  ⟨rfl, rfl, by decide⟩

/-- C3 (amended): when writing the destination archive fails, the error
propagates, the source file is left untouched (not truncated), nothing is
recorded in the history, and every path other than the destination is
unchanged; however a partially-written artifact may remain at the final
destination name, since the code writes directly to it (no
write-then-rename). -/
theorem rotate_file_write_failure_C3 (pol : RotationPolicy) (g b : Codec) (ts : String)
    (now : Int) (k : Nat) (st : EngineState) (filepath : String) (content : Bytes) (m : Int)
    (hsrc : lookupFS st.fs filepath = some (FSNode.file content m)) :
    (rotate_file pol g b ts now (some k) st filepath false).1 = .error "OSError" ∧
    (rotate_file pol g b ts now (some k) st filepath false).2.results = st.results ∧
    lookupFS (rotate_file pol g b ts now (some k) st filepath false).2.fs filepath
      = some (FSNode.file content m) ∧
    (∀ q, q ≠ destPathOf pol g b filepath ts →
      lookupFS (rotate_file pol g b ts now (some k) st filepath false).2.fs q
        = lookupFS st.fs q) := by
  have hne : filepath ≠ destPathOf pol g b filepath ts :=
    Ne.symm (destPathOf_ne pol g b filepath ts)
  rcases compressorsGet_cases g b pol.compress with hc | hc | hc <;>
  · refine ⟨?_, ?_, ?_, ?_⟩
    · simp [rotate_file, hsrc, hc]
    · simp [rotate_file, hsrc, hc]
    · simp [rotate_file, hsrc, hc, lookupFS_writeFS_ne _ _ _ _ hne]
    · intro q hq
      simp [rotate_file, hsrc, hc, lookupFS_writeFS_ne _ _ _ _ hq]

/-- C3 witness: the amended statement at a concrete failing write. -/
theorem rotate_file_write_failure_C3_witness :
    (rotate_file ⟨100, 30, "gzip", "%Y", 10⟩ ⟨fun l => 9 :: l, fun l => l.drop 1⟩
        ⟨fun l => 8 :: l, fun l => l.drop 1⟩ "T" 100 (some 2)
        ⟨[("app.log", FSNode.file [1, 2, 3, 4] 0)], []⟩ "app.log" false).1
      = .error "OSError" ∧
    (rotate_file ⟨100, 30, "gzip", "%Y", 10⟩ ⟨fun l => 9 :: l, fun l => l.drop 1⟩
        ⟨fun l => 8 :: l, fun l => l.drop 1⟩ "T" 100 (some 2)
        ⟨[("app.log", FSNode.file [1, 2, 3, 4] 0)], []⟩ "app.log" false).2.results = [] ∧
    lookupFS (rotate_file ⟨100, 30, "gzip", "%Y", 10⟩ ⟨fun l => 9 :: l, fun l => l.drop 1⟩
        ⟨fun l => 8 :: l, fun l => l.drop 1⟩ "T" 100 (some 2)
        ⟨[("app.log", FSNode.file [1, 2, 3, 4] 0)], []⟩ "app.log" false).2.fs "app.log"
      = some (FSNode.file [1, 2, 3, 4] 0) ∧
    (∀ q, q ≠ destPathOf ⟨100, 30, "gzip", "%Y", 10⟩ ⟨fun l => 9 :: l, fun l => l.drop 1⟩
        ⟨fun l => 8 :: l, fun l => l.drop 1⟩ "app.log" "T" →
      lookupFS (rotate_file ⟨100, 30, "gzip", "%Y", 10⟩ ⟨fun l => 9 :: l, fun l => l.drop 1⟩
          ⟨fun l => 8 :: l, fun l => l.drop 1⟩ "T" 100 (some 2)
          ⟨[("app.log", FSNode.file [1, 2, 3, 4] 0)], []⟩ "app.log" false).2.fs q
        = lookupFS [("app.log", FSNode.file [1, 2, 3, 4] 0)] q) :=
  rotate_file_write_failure_C3 ⟨100, 30, "gzip", "%Y", 10⟩ ⟨fun l => 9 :: l, fun l => l.drop 1⟩
    ⟨fun l => 8 :: l, fun l => l.drop 1⟩ "T" 100 2
    ⟨[("app.log", FSNode.file [1, 2, 3, 4] 0)], []⟩ "app.log" [1, 2, 3, 4] 0 rfl

/-! ## Claim C1 -/

/-- C1: a non-dry-run `rotate_file` on an existing qualifying regular file,
with no write fault and a fresh destination, returns `ok` with a result
recording the pre-mutation original size; afterwards the source path still
exists with size 0, exactly one new archive exists at the computed
destination — every other path is unchanged — and decoding the archive
through the policy's backend (the identity for `'none'`) gives back the
original content byte for byte. -/
theorem rotate_file_success_C1 (pol : RotationPolicy) (g b : Codec) (ts : String) (now : Int)
    (st : EngineState) (filepath : String) (content : Bytes) (m : Int)
    (hsrc : lookupFS st.fs filepath = some (FSNode.file content m))
    (hq : should_rotate pol st.fs filepath = true)
    (hfresh : lookupFS st.fs (destPathOf pol g b filepath ts) = none)
    (hg : g.decompress (g.compress content) = content)
    (hb : b.decompress (b.compress content) = content) :
    ∃ r : RotationResult,
      (rotate_file pol g b ts now none st filepath false).1 = .ok (some r) ∧
      r.source = filepath ∧
      r.destination = destPathOf pol g b filepath ts ∧
      r.original_size = content.length ∧
      lookupFS (rotate_file pol g b ts now none st filepath false).2.fs filepath
        = some (FSNode.file [] now) ∧
      (∃ stored mdest,
        lookupFS (rotate_file pol g b ts now none st filepath false).2.fs
            (destPathOf pol g b filepath ts) = some (FSNode.file stored mdest) ∧
        decodeFor g b pol.compress stored = content) ∧
      (∀ q, q ≠ filepath → q ≠ destPathOf pol g b filepath ts →
        lookupFS (rotate_file pol g b ts now none st filepath false).2.fs q
          = lookupFS st.fs q) := by
  have hne : destPathOf pol g b filepath ts ≠ filepath := destPathOf_ne pol g b filepath ts
  rcases compressorsGet_cases g b pol.compress with hc | hc | hc
  · refine ⟨⟨filepath, destPathOf pol g b filepath ts, content.length,
      some (g.compress content).length, now⟩, ?_, rfl, rfl, rfl, ?_, ?_, ?_⟩
    · simp [rotate_file, hsrc, hc, stSize]
    · simp [rotate_file, hsrc, hc, lookupFS_writeFS_self]
    · refine ⟨g.compress content, now, ?_, ?_⟩
      · simp [rotate_file, hsrc, hc, lookupFS_writeFS_ne _ _ _ _ hne, lookupFS_writeFS_self]
      · simp [decodeFor, hc, hg]
    · intro q hq1 hq2
      simp [rotate_file, hsrc, hc, lookupFS_writeFS_ne _ _ _ _ hq1,
        lookupFS_writeFS_ne _ _ _ _ hq2]
  · refine ⟨⟨filepath, destPathOf pol g b filepath ts, content.length,
      some (b.compress content).length, now⟩, ?_, rfl, rfl, rfl, ?_, ?_, ?_⟩
    · simp [rotate_file, hsrc, hc, stSize]
    · simp [rotate_file, hsrc, hc, lookupFS_writeFS_self]
    · refine ⟨b.compress content, now, ?_, ?_⟩
      · simp [rotate_file, hsrc, hc, lookupFS_writeFS_ne _ _ _ _ hne, lookupFS_writeFS_self]
      · simp [decodeFor, hc, hb]
    · intro q hq1 hq2
      simp [rotate_file, hsrc, hc, lookupFS_writeFS_ne _ _ _ _ hq1,
        lookupFS_writeFS_ne _ _ _ _ hq2]
  · refine ⟨⟨filepath, destPathOf pol g b filepath ts, content.length, none, now⟩,
      ?_, rfl, rfl, rfl, ?_, ?_, ?_⟩
    · simp [rotate_file, hsrc, hc, stSize]
    · simp [rotate_file, hsrc, hc, lookupFS_writeFS_self]
    · refine ⟨content, m, ?_, ?_⟩
      · simp [rotate_file, hsrc, hc, lookupFS_writeFS_ne _ _ _ _ hne, lookupFS_writeFS_self]
      · simp [decodeFor, hc]
    · intro q hq1 hq2
      simp [rotate_file, hsrc, hc, lookupFS_writeFS_ne _ _ _ _ hq1,
        lookupFS_writeFS_ne _ _ _ _ hq2]

/-- C1 witness: rotating a 2-byte `app.log` with a gzip-like codec that
prepends a header byte; the destination is `app.T.log.gz`. -/
theorem rotate_file_success_C1_witness :
    ∃ r : RotationResult,
      (rotate_file ⟨0, 30, "gzip", "%Y", 10⟩ ⟨fun l => 9 :: l, fun l => l.drop 1⟩
          ⟨fun l => 8 :: l, fun l => l.drop 1⟩ "T" 9 none
          ⟨[("app.log", FSNode.file [1, 2] 0)], []⟩ "app.log" false).1 = .ok (some r) ∧
      r.source = "app.log" ∧
      r.destination = destPathOf ⟨0, 30, "gzip", "%Y", 10⟩ ⟨fun l => 9 :: l, fun l => l.drop 1⟩
          ⟨fun l => 8 :: l, fun l => l.drop 1⟩ "app.log" "T" ∧
      r.original_size = ([1, 2] : Bytes).length ∧
      lookupFS (rotate_file ⟨0, 30, "gzip", "%Y", 10⟩ ⟨fun l => 9 :: l, fun l => l.drop 1⟩
          ⟨fun l => 8 :: l, fun l => l.drop 1⟩ "T" 9 none
          ⟨[("app.log", FSNode.file [1, 2] 0)], []⟩ "app.log" false).2.fs "app.log"
        = some (FSNode.file [] 9) ∧
      (∃ stored mdest,
        lookupFS (rotate_file ⟨0, 30, "gzip", "%Y", 10⟩ ⟨fun l => 9 :: l, fun l => l.drop 1⟩
            ⟨fun l => 8 :: l, fun l => l.drop 1⟩ "T" 9 none
            ⟨[("app.log", FSNode.file [1, 2] 0)], []⟩ "app.log" false).2.fs
            (destPathOf ⟨0, 30, "gzip", "%Y", 10⟩ ⟨fun l => 9 :: l, fun l => l.drop 1⟩
              ⟨fun l => 8 :: l, fun l => l.drop 1⟩ "app.log" "T")
          = some (FSNode.file stored mdest) ∧
        decodeFor ⟨fun l => 9 :: l, fun l => l.drop 1⟩ ⟨fun l => 8 :: l, fun l => l.drop 1⟩
          "gzip" stored = [1, 2]) ∧
      (∀ q, q ≠ "app.log" →
        q ≠ destPathOf ⟨0, 30, "gzip", "%Y", 10⟩ ⟨fun l => 9 :: l, fun l => l.drop 1⟩
            ⟨fun l => 8 :: l, fun l => l.drop 1⟩ "app.log" "T" →
        lookupFS (rotate_file ⟨0, 30, "gzip", "%Y", 10⟩ ⟨fun l => 9 :: l, fun l => l.drop 1⟩
            ⟨fun l => 8 :: l, fun l => l.drop 1⟩ "T" 9 none
            ⟨[("app.log", FSNode.file [1, 2] 0)], []⟩ "app.log" false).2.fs q
          = lookupFS [("app.log", FSNode.file [1, 2] 0)] q) :=
  rotate_file_success_C1 ⟨0, 30, "gzip", "%Y", 10⟩ ⟨fun l => 9 :: l, fun l => l.drop 1⟩
    ⟨fun l => 8 :: l, fun l => l.drop 1⟩ "T" 9 ⟨[("app.log", FSNode.file [1, 2] 0)], []⟩
    "app.log" [1, 2] 0 rfl (by norm_num [should_rotate, lookupFS, stSize]) rfl rfl rfl

/-! ## fnmatch characterization -/

theorem fnmatch_star (ps t : List Char) :
    fnmatch ('*' :: ps) t = true ↔ ∃ s, s <:+ t ∧ fnmatch ps s = true := by
  simp [fnmatch, List.any_eq_true, List.mem_tails]

theorem fnmatch_dotgz (s : List Char) :
    fnmatch ['.', 'g', 'z'] s = true ↔ s = ['.', 'g', 'z'] := by
  match s with
  | [] => simp [fnmatch]
  | [a] =>
    show (('.' == a) && false) = true ↔ _
    simp
  | [a, c] =>
    show (('.' == a) && (('g' == c) && false)) = true ↔ _
    simp
  | [a, c, d] =>
    show (('.' == a) && (('g' == c) && (('z' == d) && true))) = true ↔ _
    simp only [Bool.and_eq_true, Bool.and_true, beq_iff_eq, List.cons.injEq, and_true]
    constructor
    · rintro ⟨rfl, rfl, rfl⟩; exact ⟨rfl, rfl, rfl⟩
    · rintro ⟨rfl, rfl, rfl⟩; exact ⟨rfl, rfl, rfl⟩
  | a :: c :: d :: e :: rest =>
    show (('.' == a) && (('g' == c) && (('z' == d) && (e :: rest).isEmpty))) = true ↔ _
    simp

theorem fnmatch_dotbz2 (s : List Char) :
    fnmatch ['.', 'b', 'z', '2'] s = true ↔ s = ['.', 'b', 'z', '2'] := by
  match s with
  | [] => simp [fnmatch]
  | [a] =>
    show (('.' == a) && false) = true ↔ _
    simp
  | [a, c] =>
    show (('.' == a) && (('b' == c) && false)) = true ↔ _
    simp
  | [a, c, d] =>
    show (('.' == a) && (('b' == c) && (('z' == d) && false))) = true ↔ _
    simp
  | [a, c, d, e] =>
    show (('.' == a) && (('b' == c) && (('z' == d) && (('2' == e) && true)))) = true ↔ _
    simp only [Bool.and_eq_true, Bool.and_true, beq_iff_eq, List.cons.injEq, and_true]
    constructor
    · rintro ⟨rfl, rfl, rfl, rfl⟩; exact ⟨rfl, rfl, rfl, rfl⟩
    · rintro ⟨rfl, rfl, rfl, rfl⟩; exact ⟨rfl, rfl, rfl, rfl⟩
  | a :: c :: d :: e :: f :: rest =>
    show (('.' == a) && (('b' == c) && (('z' == d) && (('2' == e) && (f :: rest).isEmpty))))
        = true ↔ _
    simp

theorem fnmatch_gz_iff (s : List Char) :
    fnmatch "*.gz".toList s = true ↔ ['.', 'g', 'z'] <:+ s := by
  have h : "*.gz".toList = '*' :: ['.', 'g', 'z'] := rfl
  rw [h, fnmatch_star]
  constructor
  · rintro ⟨t, ht, hm⟩
    rwa [(fnmatch_dotgz t).mp hm] at ht
  · intro h2
    exact ⟨['.', 'g', 'z'], h2, (fnmatch_dotgz _).mpr rfl⟩

theorem fnmatch_bz2_iff (s : List Char) :
    fnmatch "*.bz2".toList s = true ↔ ['.', 'b', 'z', '2'] <:+ s := by
  have h : "*.bz2".toList = '*' :: ['.', 'b', 'z', '2'] := rfl
  rw [h, fnmatch_star]
  constructor
  · rintro ⟨t, ht, hm⟩
    rwa [(fnmatch_dotbz2 t).mp hm] at ht
  · intro h2
    exact ⟨['.', 'b', 'z', '2'], h2, (fnmatch_dotbz2 _).mpr rfl⟩

theorem gz_bz2_not_both (s : List Char) (h1 : fnmatch "*.gz".toList s = true)
    (h2 : fnmatch "*.bz2".toList s = true) : False := by
  rw [fnmatch_gz_iff] at h1
  rw [fnmatch_bz2_iff] at h2
  obtain ⟨u, hu⟩ := h1
  obtain ⟨v, hv⟩ := h2
  rw [← hu] at hv
  have h3 := congrArg List.reverse hv
  simp [List.reverse_append] at h3

/-! ## cleanup_old characterization -/

theorem countP_disjoint_add {α : Type} (p q : α → Bool) (l : List α)
    (h : ∀ a, p a = true → q a = true → False) :
    l.countP (fun a => p a || q a) = l.countP p + l.countP q := by
  induction l with
  | nil => simp
  | cons a l ih =>
    cases hp : p a with
    | true =>
      cases hq : q a with
      | true => exact (h a hp hq).elim
      | false =>
        simp [List.countP_cons, hp, hq, ih]
        omega
    | false =>
      cases hq : q a with
      | true =>
        simp [List.countP_cons, hp, hq, ih]
        omega
      | false => simp [List.countP_cons, hp, hq, ih]

theorem passHit_fnmatch (cutoff : Int) (pat : List Char) (e : String × FSNode)
    (h : passHit cutoff pat e = true) : fnmatch pat e.1.toList = true :=
  ((Bool.and_eq_true _ _).mp h).1

theorem passHit_disjoint (cutoff : Int) :
    ∀ e : String × FSNode, passHit cutoff "*.gz".toList e = true →
      passHit cutoff "*.bz2".toList e = true → False :=
  fun e hg hb =>
    gz_bz2_not_both e.1.toList (passHit_fnmatch _ _ _ hg) (passHit_fnmatch _ _ _ hb)

theorem passHit_gz_bz2_false (cutoff : Int) (e : String × FSNode)
    (hb : passHit cutoff "*.bz2".toList e = true) :
    passHit cutoff "*.gz".toList e = false := by
  cases hg : passHit cutoff "*.gz".toList e
  · rfl
  · exact (passHit_disjoint cutoff e hg hb).elim

theorem archiveOld_eq_or (cutoff : Int) (e : String × FSNode) :
    archiveOld cutoff e
      = (passHit cutoff "*.gz".toList e || passHit cutoff "*.bz2".toList e) := by
  unfold archiveOld passHit
  cases hg : fnmatch "*.gz".toList e.1.toList <;>
    cases hb : fnmatch "*.bz2".toList e.1.toList <;>
      cases ho : decide (mtimeOf e.2 < cutoff) <;> simp [hg, hb, ho]

theorem countP_pass_add (cutoff : Int) (fs : FS) :
    fs.countP (passHit cutoff "*.gz".toList) +
      (fs.filter (fun e => !passHit cutoff "*.gz".toList e)).countP
        (passHit cutoff "*.bz2".toList)
      = fs.countP (archiveOld cutoff) := by
  have hro : archiveOld cutoff = fun e =>
      (passHit cutoff "*.gz".toList e || passHit cutoff "*.bz2".toList e) :=
    funext (archiveOld_eq_or cutoff)
  have h1 : (fun e => passHit cutoff "*.bz2".toList e && !passHit cutoff "*.gz".toList e)
      = passHit cutoff "*.bz2".toList := by
    funext e
    by_cases hb : passHit cutoff "*.bz2".toList e = true
    · rw [hb, passHit_gz_bz2_false cutoff e hb]
      rfl
    · rw [Bool.not_eq_true] at hb
      rw [hb]
      rfl
  rw [hro, List.countP_filter, countP_disjoint_add _ _ fs (passHit_disjoint cutoff), h1]

theorem filter_pass_pass (cutoff : Int) (fs : FS) :
    (fs.filter (fun e => !passHit cutoff "*.gz".toList e)).filter
      (fun e => !passHit cutoff "*.bz2".toList e)
      = fs.filter (fun e => !archiveOld cutoff e) := by
  rw [List.filter_filter]
  apply List.filter_congr
  intro e hm
  rw [archiveOld_eq_or]
  by_cases hg : passHit cutoff "*.gz".toList e = true
  · by_cases hb : passHit cutoff "*.bz2".toList e = true
    · rw [hg, hb]; rfl
    · rw [Bool.not_eq_true] at hb
      rw [hg, hb]; rfl
  · rw [Bool.not_eq_true] at hg
    by_cases hb : passHit cutoff "*.bz2".toList e = true
    · rw [hg, hb]; rfl
    · rw [Bool.not_eq_true] at hb
      rw [hg, hb]; rfl

theorem cleanupPass_dry (cutoff : Int) (pat : List Char) (fs : FS) :
    cleanupPass cutoff pat true fs = .ok (fs.countP (passHit cutoff pat), fs) := by
  induction fs with
  | nil => simp [cleanupPass]
  | cons e rest ih =>
    obtain ⟨name, node⟩ := e
    by_cases h1 : fnmatch pat name.data = true
    · by_cases h2 : mtimeOf node < cutoff
      · simp [cleanupPass, h1, h2, ih, List.countP_cons, passHit, String.toList]
      · simp [cleanupPass, h1, h2, ih, List.countP_cons, passHit, String.toList]
    · simp [cleanupPass, h1, ih, List.countP_cons, passHit, String.toList]

theorem cleanupPass_wet (cutoff : Int) (pat : List Char) (fs : FS)
    (hf : ∀ name node, (name, node) ∈ fs → fnmatch pat name.toList = true →
      mtimeOf node < cutoff → isFileNode node = true) :
    cleanupPass cutoff pat false fs =
      .ok (fs.countP (passHit cutoff pat), fs.filter (fun e => !passHit cutoff pat e)) := by
  induction fs with
  | nil => simp [cleanupPass]
  | cons e rest ih =>
    obtain ⟨name, node⟩ := e
    have hrest : ∀ n nd, (n, nd) ∈ rest → fnmatch pat n.toList = true →
        mtimeOf nd < cutoff → isFileNode nd = true :=
      fun n nd hm => hf n nd (List.mem_cons_of_mem _ hm)
    by_cases h1 : fnmatch pat name.data = true
    · by_cases h2 : mtimeOf node < cutoff
      · have hfile := hf name node (List.mem_cons_self _ _) h1 h2
        cases node with
        | dir d m => simp [isFileNode] at hfile
        | file cc m =>
          have h2' : m < cutoff := h2
          simp [cleanupPass, h1, h2', ih hrest, List.countP_cons, List.filter_cons,
            passHit, mtimeOf, String.toList]
      · simp [cleanupPass, h1, h2, ih hrest, List.countP_cons, List.filter_cons, passHit,
          String.toList]
    · simp [cleanupPass, h1, ih hrest, List.countP_cons, List.filter_cons, passHit,
        String.toList]

theorem cleanup_old_wet (pol : RotationPolicy) (now : Int) (fs : FS)
    (hf : ∀ name node, (name, node) ∈ fs →
      archiveOld (now - pol.max_age_days * 86400) (name, node) = true →
      isFileNode node = true) :
    cleanup_old pol now fs false =
      .ok (fs.countP (archiveOld (now - pol.max_age_days * 86400)),
        fs.filter (fun e => !archiveOld (now - pol.max_age_days * 86400) e)) := by
  have hfgz : ∀ name node, (name, node) ∈ fs → fnmatch "*.gz".toList name.toList = true →
      mtimeOf node < now - pol.max_age_days * 86400 → isFileNode node = true := by
    intro n nd hm hz ho
    apply hf n nd hm
    simp only [archiveOld, Bool.and_eq_true, Bool.or_eq_true, decide_eq_true_eq]
    exact ⟨Or.inl hz, ho⟩
  have hfbz : ∀ name node,
      (name, node) ∈ fs.filter
        (fun e => !passHit (now - pol.max_age_days * 86400) "*.gz".toList e) →
      fnmatch "*.bz2".toList name.toList = true →
      mtimeOf node < now - pol.max_age_days * 86400 → isFileNode node = true := by
    intro n nd hm hz ho
    apply hf n nd (List.mem_of_mem_filter hm)
    simp only [archiveOld, Bool.and_eq_true, Bool.or_eq_true, decide_eq_true_eq]
    exact ⟨Or.inr hz, ho⟩
  simp only [cleanup_old, cleanupPass_wet _ _ fs hfgz, cleanupPass_wet _ _ _ hfbz]
  rw [countP_pass_add, filter_pass_pass]

theorem cleanup_old_dry (pol : RotationPolicy) (now : Int) (fs : FS) :
    cleanup_old pol now fs true =
      .ok (fs.countP (archiveOld (now - pol.max_age_days * 86400)), fs) := by
  have hro : archiveOld (now - pol.max_age_days * 86400) = fun e =>
      (passHit (now - pol.max_age_days * 86400) "*.gz".toList e ||
        passHit (now - pol.max_age_days * 86400) "*.bz2".toList e) :=
    funext (archiveOld_eq_or _)
  simp only [cleanup_old, cleanupPass_dry]
  rw [hro, countP_disjoint_add _ _ fs (passHit_disjoint _)]

/-! ## Claim C6 -/

/-- C6: on a directory whose matching entries are regular files,
`cleanup_old` removes exactly those immediate-child entries whose name
matches `*.gz` or `*.bz2` — equivalently (third conjunct) whose name ends
with the `.gz` or `.bz2` backend suffix — and whose mtime is strictly older
than `now - max_age`; all others are retained, an archive exactly at the
cutoff is never a deletion candidate (fourth conjunct), and the returned
count is the number removed (in dry-run mode: that would be removed, with
nothing deleted). -/
theorem cleanup_old_spec_C6 (pol : RotationPolicy) (now : Int) (fs : FS)
    (hf : ∀ name node, (name, node) ∈ fs →
      archiveOld (now - pol.max_age_days * 86400) (name, node) = true →
      isFileNode node = true) :
    cleanup_old pol now fs false =
      .ok (fs.countP (archiveOld (now - pol.max_age_days * 86400)),
        fs.filter (fun e => !archiveOld (now - pol.max_age_days * 86400) e)) ∧
    cleanup_old pol now fs true =
      .ok (fs.countP (archiveOld (now - pol.max_age_days * 86400)), fs) ∧
    (∀ s : List Char,
      (fnmatch "*.gz".toList s = true ↔ ['.', 'g', 'z'] <:+ s) ∧
      (fnmatch "*.bz2".toList s = true ↔ ['.', 'b', 'z', '2'] <:+ s)) ∧
    (∀ (name : String) (node : FSNode),
      mtimeOf node = now - pol.max_age_days * 86400 →
      archiveOld (now - pol.max_age_days * 86400) (name, node) = false) :=
  ⟨cleanup_old_wet pol now fs hf, cleanup_old_dry pol now fs,
    fun s => ⟨fnmatch_gz_iff s, fnmatch_bz2_iff s⟩,
    fun name node hmt => by simp [archiveOld, hmt]⟩

/-- C6 witness: the spec's concrete scenario — a 40-day-old and a 10-day-old
archive against a 30-day retention at `now = 0` (times in seconds): exactly
the 40-day-old one is removed and the count is 1. -/
theorem cleanup_old_spec_C6_witness :
    cleanup_old ⟨100, 30, "gzip", "%Y", 10⟩ 0
      [("a.log.gz", FSNode.file [1] (-3456000)), ("b.log.gz", FSNode.file [2] (-864000))]
      false
      = .ok (1, [("b.log.gz", FSNode.file [2] (-864000))]) := by
  have h := (cleanup_old_spec_C6 ⟨100, 30, "gzip", "%Y", 10⟩ 0
      [("a.log.gz", FSNode.file [1] (-3456000)), ("b.log.gz", FSNode.file [2] (-864000))]
      (by
        intro name node hm ha
        simp only [List.mem_cons, List.mem_singleton, Prod.mk.injEq] at hm
        rcases hm with ⟨rfl, rfl⟩ | ⟨rfl, rfl⟩ | hm
        · rfl
        · rfl
        · simp at hm)).1
  rw [h]
  rfl

/-! ## Claim C9 -/

/-- C9: dry-run `rotate_file` leaves the engine state (hence every file's
size, existence and mtime) unchanged, returns `ok none` exactly on a missing
path — the same eligibility outcome as the live path — and on an existing
node returns a result describing the would-be move with `compressed_size`
absent; dry-run `cleanup_old` deletes nothing and reports exactly the count
a successful live run removes. -/
theorem dry_run_frame_C9 (pol : RotationPolicy) (g b : Codec) (ts : String) (now : Int)
    (fault : Option Nat) (st : EngineState) (filepath : String) (fs : FS)
    (hf : ∀ name node, (name, node) ∈ fs →
      archiveOld (now - pol.max_age_days * 86400) (name, node) = true →
      isFileNode node = true) :
    (rotate_file pol g b ts now fault st filepath true).2 = st ∧
    ((rotate_file pol g b ts now fault st filepath true).1 = .ok none ↔
      lookupFS st.fs filepath = none) ∧
    (∀ node, lookupFS st.fs filepath = some node →
      (rotate_file pol g b ts now fault st filepath true).1 =
        .ok (some ⟨filepath, destPathOf pol g b filepath ts, stSize node, none, now⟩)) ∧
    cleanup_old pol now fs true =
      .ok (fs.countP (archiveOld (now - pol.max_age_days * 86400)), fs) ∧
    (∀ c fs2, cleanup_old pol now fs false = .ok (c, fs2) →
      cleanup_old pol now fs true = .ok (c, fs)) := by
  refine ⟨?_, ?_, ?_, cleanup_old_dry pol now fs, ?_⟩
  · cases hl : lookupFS st.fs filepath <;> simp [rotate_file, hl]
  · cases hl : lookupFS st.fs filepath <;> simp [rotate_file, hl]
  · intro node hl
    simp [rotate_file, hl]
  · intro c fs2 h
    rw [cleanup_old_wet pol now fs hf] at h
    simp only [Except.ok.injEq, Prod.mk.injEq] at h
    obtain ⟨hc, hfs⟩ := h
    rw [← hc]
    exact cleanup_old_dry pol now fs

/-- C9 witness: a dry-run rotation of a 2-byte `app.log` (state unchanged,
result has `compressed_size` absent) and a dry-run cleanup over one 40-day-old
archive (nothing deleted, count 1 as the live run would remove). -/
theorem dry_run_frame_C9_witness :
    (rotate_file ⟨100, 30, "gzip", "%Y", 10⟩ ⟨fun l => 9 :: l, fun l => l.drop 1⟩
        ⟨fun l => 8 :: l, fun l => l.drop 1⟩ "T" 0 none
        ⟨[("app.log", FSNode.file [1, 2] 3)], []⟩ "app.log" true).2
      = ⟨[("app.log", FSNode.file [1, 2] 3)], []⟩ ∧
    (rotate_file ⟨100, 30, "gzip", "%Y", 10⟩ ⟨fun l => 9 :: l, fun l => l.drop 1⟩
        ⟨fun l => 8 :: l, fun l => l.drop 1⟩ "T" 0 none
        ⟨[("app.log", FSNode.file [1, 2] 3)], []⟩ "app.log" true).1
      = .ok (some ⟨"app.log",
          destPathOf ⟨100, 30, "gzip", "%Y", 10⟩ ⟨fun l => 9 :: l, fun l => l.drop 1⟩
            ⟨fun l => 8 :: l, fun l => l.drop 1⟩ "app.log" "T",
          stSize (FSNode.file [1, 2] 3), none, 0⟩) ∧
    cleanup_old ⟨100, 30, "gzip", "%Y", 10⟩ 0
      [("old.log.gz", FSNode.file [1] (-3456000))] true
      = .ok (1, [("old.log.gz", FSNode.file [1] (-3456000))]) := by
  have hfw : ∀ name node, (name, node) ∈ [("old.log.gz", FSNode.file [1] (-3456000))] →
      archiveOld ((0 : Int) - (30 : Int) * 86400) (name, node) = true →
      isFileNode node = true := by
    intro name node hm ha
    simp only [List.mem_singleton, Prod.mk.injEq] at hm
    obtain ⟨rfl, rfl⟩ := hm
    rfl
  refine ⟨?_, ?_, ?_⟩
  · exact (dry_run_frame_C9 ⟨100, 30, "gzip", "%Y", 10⟩ ⟨fun l => 9 :: l, fun l => l.drop 1⟩
      ⟨fun l => 8 :: l, fun l => l.drop 1⟩ "T" 0 none ⟨[("app.log", FSNode.file [1, 2] 3)], []⟩
      "app.log" [("old.log.gz", FSNode.file [1] (-3456000))] hfw).1
  · exact (dry_run_frame_C9 ⟨100, 30, "gzip", "%Y", 10⟩ ⟨fun l => 9 :: l, fun l => l.drop 1⟩
      ⟨fun l => 8 :: l, fun l => l.drop 1⟩ "T" 0 none ⟨[("app.log", FSNode.file [1, 2] 3)], []⟩
      "app.log" [("old.log.gz", FSNode.file [1] (-3456000))] hfw).2.2.1
      (FSNode.file [1, 2] 3) rfl
  · exact (dry_run_frame_C9 ⟨100, 30, "gzip", "%Y", 10⟩ ⟨fun l => 9 :: l, fun l => l.drop 1⟩
      ⟨fun l => 8 :: l, fun l => l.drop 1⟩ "T" 0 none ⟨[("app.log", FSNode.file [1, 2] 3)], []⟩
      "app.log" [("old.log.gz", FSNode.file [1] (-3456000))] hfw).2.2.2.2 1 [] rfl

/-! ## rotate characterization -/

theorem rotate_file_source (pol : RotationPolicy) (g b : Codec) (ts : String) (now : Int)
    (fault : Option Nat) (st : EngineState) (f : String) (dry : Bool) (r : RotationResult)
    (st1 : EngineState)
    (h : rotate_file pol g b ts now fault st f dry = (.ok (some r), st1)) :
    r.source = f := by
  unfold rotate_file at h
  cases hl : lookupFS st.fs f with
  | none =>
    rw [hl] at h
    simp at h
  | some node =>
    simp only [hl] at h
    cases dry with
    | true =>
      rw [if_pos rfl] at h
      simp only [Prod.mk.injEq, Except.ok.injEq, Option.some.injEq] at h
      rw [← h.1]
    | false =>
      rw [if_neg Bool.false_ne_true] at h
      cases node with
      | dir d m => simp at h
      | file content m =>
        cases hc : (compressorsGet g b pol.compress).2 with
        | none =>
          simp only [hc] at h
          cases fault with
          | some k => simp at h
          | none =>
            simp only [Prod.mk.injEq, Except.ok.injEq, Option.some.injEq] at h
            rw [← h.1]
        | some codec =>
          simp only [hc] at h
          cases fault with
          | some k => simp at h
          | none =>
            simp only [Prod.mk.injEq, Except.ok.injEq, Option.some.injEq] at h
            rw [← h.1]

theorem rotateGo_skip (pol : RotationPolicy) (g b : Codec) (ts : String) (now : Int)
    (faults : String → Option Nat) (dry : Bool) (f : String) (rest : List String)
    (st : EngineState) (h : should_rotate pol st.fs f = false) :
    rotateGo pol g b ts now faults dry (f :: rest) st =
      rotateGo pol g b ts now faults dry rest st := by
  simp [rotateGo, h]

theorem should_rotate_nonneg_threshold (mad : Int) (c tf : String) (bc : Nat) (fs : FS)
    (p : String) (node : FSNode) (hl : lookupFS fs p = some node) :
    should_rotate ⟨0, mad, c, tf, bc⟩ fs p = true := by
  simp only [should_rotate, hl, ge_iff_le, decide_eq_true_eq]
  positivity

theorem rotateGo_step_ok (pol : RotationPolicy) (g b : Codec) (ts : String) (now : Int)
    (faults : String → Option Nat) (dry : Bool) (f : String) (rest : List String)
    (st : EngineState) (r : RotationResult) (st1 : EngineState)
    (hq : should_rotate pol st.fs f = true)
    (hstep : rotate_file pol g b ts now (faults f) st f dry = (.ok (some r), st1)) :
    rotateGo pol g b ts now faults dry (f :: rest) st =
      (match rotateGo pol g b ts now faults dry rest st1 with
        | (.error e, st2) => (.error e, st2)
        | (.ok rs, st2) => (.ok (r :: rs), st2)) := by
  simp [rotateGo, hq, hstep]

theorem rotateGo_abort (pol : RotationPolicy) (g b : Codec) (ts : String) (now : Int)
    (faults : String → Option Nat) (dry : Bool) (f : String) (rest : List String)
    (st : EngineState) (e : String) (st1 : EngineState)
    (hq : should_rotate pol st.fs f = true)
    (herr : rotate_file pol g b ts now (faults f) st f dry = (.error e, st1)) :
    rotateGo pol g b ts now faults dry (f :: rest) st = (.error e, st1) := by
  simp [rotateGo, hq, herr]

theorem rotateGo_sources_sublist (pol : RotationPolicy) (g b : Codec) (ts : String)
    (now : Int) (faults : String → Option Nat) (dry : Bool) :
    ∀ (l : List String) (st : EngineState) (rs : List RotationResult) (st2 : EngineState),
      rotateGo pol g b ts now faults dry l st = (.ok rs, st2) →
      List.Sublist (rs.map (·.source)) l := by
  intro l
  induction l with
  | nil =>
    intro st rs st2 h
    simp only [rotateGo, Prod.mk.injEq, Except.ok.injEq] at h
    obtain ⟨h1, -⟩ := h
    rw [← h1]
    simp
  | cons f rest ih =>
    intro st rs st2 h
    by_cases hs : should_rotate pol st.fs f = true
    · unfold rotateGo at h
      rw [if_pos hs] at h
      cases hr : rotate_file pol g b ts now (faults f) st f dry with
      | mk res st1 =>
        cases res with
        | error e => simp [hr] at h
        | ok ores =>
          cases hgo : rotateGo pol g b ts now faults dry rest st1 with
          | mk res2 st2a =>
            cases res2 with
            | error e => simp [hr, hgo] at h
            | ok rs2 =>
              cases ores with
              | none =>
                simp only [hr, hgo, Prod.mk.injEq, Except.ok.injEq] at h
                obtain ⟨h1, -⟩ := h
                rw [← h1]
                exact (ih st1 rs2 st2a hgo).cons f
              | some r =>
                simp only [hr, hgo, Prod.mk.injEq, Except.ok.injEq] at h
                obtain ⟨h1, -⟩ := h
                rw [← h1]
                simp only [List.map_cons]
                rw [rotate_file_source pol g b ts now (faults f) st f dry r st1 hr]
                exact (ih st1 rs2 st2a hgo).cons₂ f
    · have hs2 : should_rotate pol st.fs f = false := by simpa using hs
      rw [rotateGo_skip pol g b ts now faults dry f rest st hs2] at h
      exact (ih st rs st2 h).cons f

/-! ## Claim C8 -/

/-- C8: `rotate` expands the glob pattern over the directory listing into a
lexicographically sorted list of matching paths and runs the per-file loop
over exactly that list; a path for which `should_rotate` is false — in
particular a path that no longer exists — is skipped silently with no
result and no state change; and whenever the batch returns `ok`, the sources
of the returned results are a sublist of the sorted expansion in that order
(hence themselves sorted). -/
theorem rotate_order_spec_C8 (pol : RotationPolicy) (g b : Codec) (ts : String) (now : Int)
    (faults : String → Option Nat) (st : EngineState) (pattern : String) (dry : Bool) :
    List.Sorted (· ≤ ·) (globExpand pattern st.fs) ∧
    rotate pol g b ts now faults st pattern dry =
      rotateGo pol g b ts now faults dry (globExpand pattern st.fs) st ∧
    (∀ f rest st1, should_rotate pol st1.fs f = false →
      rotateGo pol g b ts now faults dry (f :: rest) st1 =
        rotateGo pol g b ts now faults dry rest st1) ∧
    (∀ f rest st1, lookupFS st1.fs f = none →
      rotateGo pol g b ts now faults dry (f :: rest) st1 =
        rotateGo pol g b ts now faults dry rest st1) ∧
    (∀ rs st2, rotate pol g b ts now faults st pattern dry = (.ok rs, st2) →
      List.Sublist (rs.map (·.source)) (globExpand pattern st.fs) ∧
      List.Sorted (· ≤ ·) (rs.map (·.source))) := by
  refine ⟨List.sorted_insertionSort _ _, rfl, ?_, ?_, ?_⟩
  · intro f rest st1 h
    exact rotateGo_skip pol g b ts now faults dry f rest st1 h
  · intro f rest st1 h
    apply rotateGo_skip
    simp [should_rotate, h]
  · intro rs st2 h
    have hsub := rotateGo_sources_sublist pol g b ts now faults dry
      (globExpand pattern st.fs) st rs st2 h
    exact ⟨hsub, (List.sorted_insertionSort _ _).sublist hsub⟩

/-- C8 witness: the expansion of `*.log` over an unsorted two-file listing is
the lexicographically sorted match list, as the theorem states. -/
theorem rotate_order_spec_C8_witness :
    globExpand "*.log" [("b.log", FSNode.file [1] 0), ("a.log", FSNode.file [2] 0)]
      = ["a.log", "b.log"] ∧
    List.Sorted (· ≤ ·)
      (globExpand "*.log" [("b.log", FSNode.file [1] 0), ("a.log", FSNode.file [2] 0)]) := by
  constructor
  · have hfil : (([("b.log", FSNode.file [1] 0), ("a.log", FSNode.file [2] 0)] : FS).map
        Prod.fst).filter (fun n => globMatch "*.log".toList n.toList) = ["b.log", "a.log"] := by
      decide
    have hle : ¬ (("b.log" : String) ≤ "a.log") := by
      rw [String.le_iff_toList_le]
      decide
    simp [globExpand, sortStrings, hfil, List.insertionSort, List.orderedInsert, hle]
  · exact (rotate_order_spec_C8 ⟨100, 30, "none", "%Y", 10⟩ ⟨id, id⟩ ⟨id, id⟩ "T" 0
      (fun _ => none) ⟨[("b.log", FSNode.file [1] 0), ("a.log", FSNode.file [2] 0)], []⟩
      "*.log" false).1

/-! ## Claim C4 -/

/-- C4, counterexample: three qualifying files `a.log`, `b.log`, `c.log`
with an I/O failure injected on `b.log`: the batch returns the error instead
of a result list, and `c.log` — a remaining pattern match that still
qualifies — is left unrotated: one bad file does block rotation of the
others, contradicting the claim. -/
theorem rotate_batch_abort_counterexample_C4 :
    globExpand "*.log"
      [("a.log", FSNode.file [1, 2] 0), ("b.log", FSNode.file [3, 4] 0),
        ("c.log", FSNode.file [5, 6] 0)] = ["a.log", "b.log", "c.log"] ∧
    (rotate ⟨0, 30, "none", "%Y", 10⟩ ⟨fun l => 9 :: l, fun l => l.drop 1⟩
        ⟨fun l => 8 :: l, fun l => l.drop 1⟩ "T" 9
        (fun s => if s = "b.log" then some 0 else none)
        ⟨[("a.log", FSNode.file [1, 2] 0), ("b.log", FSNode.file [3, 4] 0),
          ("c.log", FSNode.file [5, 6] 0)], []⟩ "*.log" false).1 = .error "OSError" ∧
    lookupFS (rotate ⟨0, 30, "none", "%Y", 10⟩ ⟨fun l => 9 :: l, fun l => l.drop 1⟩
        ⟨fun l => 8 :: l, fun l => l.drop 1⟩ "T" 9
        (fun s => if s = "b.log" then some 0 else none)
        ⟨[("a.log", FSNode.file [1, 2] 0), ("b.log", FSNode.file [3, 4] 0),
          ("c.log", FSNode.file [5, 6] 0)], []⟩ "*.log" false).2.fs "c.log"
      = some (FSNode.file [5, 6] 0) ∧
    should_rotate ⟨0, 30, "none", "%Y", 10⟩
      [("a.log", FSNode.file [1, 2] 0), ("b.log", FSNode.file [3, 4] 0),
        ("c.log", FSNode.file [5, 6] 0)] "c.log" = true := by
  have hglob : globExpand "*.log"
      [("a.log", FSNode.file [1, 2] 0), ("b.log", FSNode.file [3, 4] 0),
        ("c.log", FSNode.file [5, 6] 0)] = ["a.log", "b.log", "c.log"] := by
    have hfil : (([("a.log", FSNode.file [1, 2] 0), ("b.log", FSNode.file [3, 4] 0),
        ("c.log", FSNode.file [5, 6] 0)] : FS).map Prod.fst).filter
        (fun n => globMatch "*.log".toList n.toList) = ["a.log", "b.log", "c.log"] := by
      decide
    have hle1 : (['a', '.', 'l', 'o', 'g'] : List Char) ≤ ['b', '.', 'l', 'o', 'g'] := by
      decide
    have hle2 : (['b', '.', 'l', 'o', 'g'] : List Char) ≤ ['c', '.', 'l', 'o', 'g'] := by
      decide
    simp [globExpand, sortStrings, hfil, List.insertionSort, List.orderedInsert, hle1, hle2]
  have hsa : should_rotate ⟨0, 30, "none", "%Y", 10⟩
      [("a.log", FSNode.file [1, 2] 0), ("b.log", FSNode.file [3, 4] 0),
        ("c.log", FSNode.file [5, 6] 0)] "a.log" = true :=
    should_rotate_nonneg_threshold 30 "none" "%Y" 10 _ _ (FSNode.file [1, 2] 0) rfl
  have hra : rotate_file ⟨0, 30, "none", "%Y", 10⟩ ⟨fun l => 9 :: l, fun l => l.drop 1⟩
      ⟨fun l => 8 :: l, fun l => l.drop 1⟩ "T" 9 none
      ⟨[("a.log", FSNode.file [1, 2] 0), ("b.log", FSNode.file [3, 4] 0),
        ("c.log", FSNode.file [5, 6] 0)], []⟩ "a.log" false
      = (.ok (some ⟨"a.log", "a.T.log", 2, none, 9⟩),
          ⟨[("a.log", FSNode.file [] 9), ("b.log", FSNode.file [3, 4] 0),
            ("c.log", FSNode.file [5, 6] 0), ("a.T.log", FSNode.file [1, 2] 0)],
            [⟨"a.log", "a.T.log", 2, none, 9⟩]⟩) := rfl
  have hsb : should_rotate ⟨0, 30, "none", "%Y", 10⟩
      [("a.log", FSNode.file [] 9), ("b.log", FSNode.file [3, 4] 0),
        ("c.log", FSNode.file [5, 6] 0), ("a.T.log", FSNode.file [1, 2] 0)] "b.log" = true :=
    should_rotate_nonneg_threshold 30 "none" "%Y" 10 _ _ (FSNode.file [3, 4] 0) rfl
  have hrb : rotate_file ⟨0, 30, "none", "%Y", 10⟩ ⟨fun l => 9 :: l, fun l => l.drop 1⟩
      ⟨fun l => 8 :: l, fun l => l.drop 1⟩ "T" 9 (some 0)
      ⟨[("a.log", FSNode.file [] 9), ("b.log", FSNode.file [3, 4] 0),
        ("c.log", FSNode.file [5, 6] 0), ("a.T.log", FSNode.file [1, 2] 0)],
        [⟨"a.log", "a.T.log", 2, none, 9⟩]⟩ "b.log" false
      = (.error "OSError",
          ⟨[("a.log", FSNode.file [] 9), ("b.log", FSNode.file [3, 4] 0),
            ("c.log", FSNode.file [5, 6] 0), ("a.T.log", FSNode.file [1, 2] 0),
            ("b.T.log", FSNode.file [] 9)],
            [⟨"a.log", "a.T.log", 2, none, 9⟩]⟩) := rfl
  have hrot : rotate ⟨0, 30, "none", "%Y", 10⟩ ⟨fun l => 9 :: l, fun l => l.drop 1⟩
      ⟨fun l => 8 :: l, fun l => l.drop 1⟩ "T" 9
      (fun s => if s = "b.log" then some 0 else none)
      ⟨[("a.log", FSNode.file [1, 2] 0), ("b.log", FSNode.file [3, 4] 0),
        ("c.log", FSNode.file [5, 6] 0)], []⟩ "*.log" false
      = (.error "OSError",
          ⟨[("a.log", FSNode.file [] 9), ("b.log", FSNode.file [3, 4] 0),
            ("c.log", FSNode.file [5, 6] 0), ("a.T.log", FSNode.file [1, 2] 0),
            ("b.T.log", FSNode.file [] 9)],
            [⟨"a.log", "a.T.log", 2, none, 9⟩]⟩) := by
    unfold rotate
    rw [hglob]
    rw [rotateGo_step_ok _ _ _ _ _ _ _ _ _ _ _ _ hsa hra]
    rw [rotateGo_abort _ _ _ _ _ _ _ _ _ _ _ _ hsb hrb]
  refine ⟨hglob, ?_, ?_, ?_⟩
  · rw [hrot]
  · rw [hrot]
    rfl
  · exact should_rotate_nonneg_threshold 30 "none" "%Y" 10 _ _ (FSNode.file [5, 6] 0) rfl

/-- C4 (amended): an I/O failure while rotating one file is not contained:
wherever the loop reaches a qualifying file whose rotation raises, the
exception propagates out of the batch immediately — the error (not a result
list) is returned, the results collected so far are discarded from the
return value, and the remaining pattern matches are not rotated. -/
theorem rotate_abort_spec_C4 (pol : RotationPolicy) (g b : Codec) (ts : String) (now : Int)
    (faults : String → Option Nat) (st : EngineState) (pattern : String) (dry : Bool) :
    (∀ f rest st1 e st2, should_rotate pol st1.fs f = true →
      rotate_file pol g b ts now (faults f) st1 f dry = (.error e, st2) →
      rotateGo pol g b ts now faults dry (f :: rest) st1 = (.error e, st2)) ∧
    (∀ f rest e st1, globExpand pattern st.fs = f :: rest →
      should_rotate pol st.fs f = true →
      rotate_file pol g b ts now (faults f) st f dry = (.error e, st1) →
      rotate pol g b ts now faults st pattern dry = (.error e, st1)) := by
  constructor
  · intro f rest st1 e st2 hq herr
    simp [rotateGo, hq, herr]
  · intro f rest e st1 hglob hq herr
    unfold rotate
    rw [hglob]
    simp [rotateGo, hq, herr]

/-- C4 witness: a single qualifying file whose destination write fails —
the batch returns the error, with the partial destination artifact in the
final state. -/
theorem rotate_abort_spec_C4_witness :
    rotate ⟨0, 30, "none", "%Y", 10⟩ ⟨fun l => 9 :: l, fun l => l.drop 1⟩
        ⟨fun l => 8 :: l, fun l => l.drop 1⟩ "T" 9 (fun _ => some 0)
        ⟨[("a.log", FSNode.file [1, 2] 0)], []⟩ "*.log" false
      = (.error "OSError",
          ⟨[("a.log", FSNode.file [1, 2] 0), ("a.T.log", FSNode.file [] 9)], []⟩) :=
  (rotate_abort_spec_C4 ⟨0, 30, "none", "%Y", 10⟩ ⟨fun l => 9 :: l, fun l => l.drop 1⟩
      ⟨fun l => 8 :: l, fun l => l.drop 1⟩ "T" 9 (fun _ => some 0)
      ⟨[("a.log", FSNode.file [1, 2] 0)], []⟩ "*.log" false).2
    "a.log" [] "OSError" ⟨[("a.log", FSNode.file [1, 2] 0), ("a.T.log", FSNode.file [] 9)], []⟩
    (by decide) (should_rotate_nonneg_threshold 30 "none" "%Y" 10 _ _ (FSNode.file [1, 2] 0) rfl)
    rfl

end LogRotator
